import Mathlib

/-!
Shallow embedding of the `lear` business-registry core: the `Business` model
(`src/legal-api/src/legal_api/models/business.py`) and the dissolution filing
validator (`src/legal-api/src/legal_api/services/filings/validations/dissolution.py`).

Calendar values are modelled as Gregorian year/month/day triples. Python's
`datetime`/`date` constructors reject invalid month/day combinations and years
outside `MINYEAR = 1 .. MAXYEAR = 9999`; `mkDate` mirrors that by returning
`none` where Python raises `ValueError`. Adding a `timedelta` to a date raises
`OverflowError` when the result passes `date.max` = 9999-12-31; `addTimedelta`
and `datedeltaAdd` mirror that by returning `none`. Python datetimes carry a
time of day; `DateTime` pairs a `Date` with a time-of-day ordinal, compared
lexicographically exactly as Python compares datetimes.
-/

set_option autoImplicit false
set_option maxRecDepth 4000

namespace Lear

/-- Gregorian leap-year rule, as used by Python's `calendar`/`datetime`. -/
def isLeapYear (y : Nat) : Bool :=
  (y % 4 == 0 && y % 100 != 0) || y % 400 == 0

/-- Number of days in month `m` of year `y` (Python `calendar.monthrange(y, m)[1]`). -/
def daysInMonth (y m : Nat) : Nat :=
  if m = 2 then (if isLeapYear y then 29 else 28)
  else if m = 4 ∨ m = 6 ∨ m = 9 ∨ m = 11 then 30
  else 31

/-- A calendar date: the value of a Python `datetime.date`. -/
structure Date where
  year : Nat
  month : Nat
  day : Nat
deriving DecidableEq, Repr

/-- Date validity as enforced by the `datetime` constructor and by
`date.replace`: year in `MINYEAR = 1 .. MAXYEAR = 9999`, month in 1..12, day
in 1..(days in that month). -/
def isValidDate (y m d : Nat) : Prop :=
  1 ≤ y ∧ y ≤ 9999 ∧ 1 ≤ m ∧ m ≤ 12 ∧ 1 ≤ d ∧ d ≤ daysInMonth y m

instance (y m d : Nat) : Decidable (isValidDate y m d) := by
  unfold isValidDate; infer_instance

/-- Python `datetime(y, m, d).date()`: `some` of the date when the components
are valid, `none` where Python raises `ValueError`. -/
def mkDate (y m d : Nat) : Option Date :=
  if isValidDate y m d then some ⟨y, m, d⟩ else none

/-- Strict lexicographic comparison of dates, as Python compares `date` values. -/
def Date.ltB (a b : Date) : Bool :=
  Nat.blt a.year b.year ||
    (a.year == b.year &&
      (Nat.blt a.month b.month || (a.month == b.month && Nat.blt a.day b.day)))

/-- Successor day in the Gregorian calendar. -/
def Date.nextDay (d : Date) : Date :=
  if d.day < daysInMonth d.year d.month then ⟨d.year, d.month, d.day + 1⟩
  else if d.month < 12 then ⟨d.year, d.month + 1, 1⟩
  else ⟨d.year + 1, 1, 1⟩

/-- Iterated day-succession: the raw calendar arithmetic under
`d + timedelta(days = n)`, before Python's range check. -/
def Date.addDays (d : Date) : Nat → Date
  | 0 => d
  | n + 1 => (d.nextDay).addDays n

/-- `d + timedelta(days = n)` for a non-negative day count: the summed date,
or `none` where Python raises `OverflowError` because the result passes
`date.max` = 9999-12-31. -/
def Date.addTimedelta (d : Date) (n : Nat) : Option Date :=
  if (d.addDays n).year ≤ 9999 then some (d.addDays n) else none

/-- The month-shift-and-clamp step of `datedelta` addition: shift the month
index by `years`/`months` and clamp the day to the length of the target month
(the raw components handed to `date.replace`). -/
def datedeltaShift (d : Date) (years months : Nat) : Date :=
  ⟨d.year + years + (d.month - 1 + months) / 12,
   (d.month - 1 + months) % 12 + 1,
   min d.day
     (daysInMonth (d.year + years + (d.month - 1 + months) / 12)
       ((d.month - 1 + months) % 12 + 1))⟩

/-- Addition of a `datedelta.datedelta(years, months, days)` to a date as
Python executes it: the month shift with day clamping is materialised through
`date.replace`, which validates like the constructor (`none` where it raises
`ValueError`, in particular for a shifted year beyond 9999), and the days are
then added as a timedelta (`none` where that raises `OverflowError`). -/
def datedeltaAdd (d : Date) (years months days : Nat) : Option Date :=
  (mkDate (datedeltaShift d years months).year (datedeltaShift d years months).month
      (datedeltaShift d years months).day).bind
    (fun base => base.addTimedelta days)

/-- A Python `datetime`: a date plus a time-of-day ordinal (microseconds within
the day; its unit is irrelevant to the comparisons modelled here). -/
structure DateTime where
  date : Date
  tod : Nat
deriving DecidableEq, Repr

/-- Strict comparison of datetimes: lexicographic on (date, time of day). -/
def DateTime.ltB (a b : DateTime) : Bool :=
  Date.ltB a.date b.date || (a.date == b.date && Nat.blt a.tod b.tod)

/-- ASCII whitespace stripped by Python's `int(str)` conversion (the model is
restricted to ASCII strings; CPython additionally strips some Unicode spaces). -/
def isAsciiWs (c : Char) : Bool :=
  c = ' ' || c = '\t' || c = '\n' || c = '\r' || c = '\x0b' || c = '\x0c'

/-- Strip leading and trailing ASCII whitespace. -/
def stripWs (cs : List Char) : List Char :=
  ((cs.dropWhile isAsciiWs).reverse.dropWhile isAsciiWs).reverse

/-- After an initial digit, the rest of a Python integer literal body: digits
with single underscores allowed only between digits. -/
def digitsRest : List Char → Bool
  | [] => true
  | ['_'] => false
  | '_' :: c :: cs => c.isDigit && digitsRest cs
  | c :: cs => c.isDigit && digitsRest cs

/-- Body of a Python integer literal: a non-empty digit run with optional
single underscores between digits. -/
def digitsOk : List Char → Bool
  | [] => false
  | c :: cs => c.isDigit && digitsRest cs

/-- Numeric value of a digit-and-underscore run. -/
def digitsVal (cs : List Char) : Nat :=
  cs.foldl (fun a c => if c = '_' then a else a * 10 + (c.toNat - 48)) 0

/-- Python `int(s)` on an ASCII string: optional surrounding whitespace, an
optional sign, then digits with optional single underscores between digits;
`none` where CPython raises `ValueError`. -/
def pyIntParse (cs : List Char) : Option Int :=
  match stripWs cs with
  | '+' :: rest => if digitsOk rest then some (Int.ofNat (digitsVal rest)) else none
  | '-' :: rest => if digitsOk rest then some (-(Int.ofNat (digitsVal rest))) else none
  | rest => if digitsOk rest then some (Int.ofNat (digitsVal rest)) else none

/-- The `BusinessException` raised by the identifier setter: an error slug and
an HTTP status code. -/
structure BusinessException where
  error : String
  status_code : Nat
deriving DecidableEq, Repr

/-- The `Business` model's columns used by the modelled operations
(`business.py`, class `Business`). The `_identifier` column backs the
`identifier` hybrid property; `legal_type` is the string value of the
`LegalTypes` enum. -/
structure Business where
  _identifier : Option String
  legal_name : Option String
  legal_type : String
  founding_date : DateTime
  last_ar_date : Option DateTime
  last_agm_date : Option DateTime
  dissolution_date : Option DateTime
  fiscal_year_end_date : Option DateTime
  last_ar_year : Option Nat
  tax_id : Option String
  restriction_ind : Bool
deriving DecidableEq, Repr

namespace Business

/-- `LegalTypes.COOP.value` in the source enum. -/
def LegalTypesCOOP : String := "CP"

/-- `LegalTypes.BCOMP.value` in the source enum. -/
def LegalTypesBCOMP : String := "BEN"

/-- `Business.validate_identifier` (`business.py` lines 339-368): accept
anything beginning with `NR`; otherwise require length at least 9, that the
last seven characters convert via `int()` to a non-zero value, and that the
remaining head of the string is one of `CP`, `XCP`, `BC`. -/
def validate_identifier_core (cs : List Char) : Bool :=
  if cs.take 2 = ['N', 'R'] then
    true
  else if cs.length < 9 then
    false
  else
    match pyIntParse (cs.drop (cs.length - 7)) with
    | none => false
    | some d =>
      if d = 0 then false
      else
        let p := cs.take (cs.length - 7)
        p == ['C', 'P'] || p == ['X', 'C', 'P'] || p == ['B', 'C']

/-- `Business.validate_identifier` on a Lean string: the body above applied to
the string's characters. -/
def validate_identifier (identifier : String) : Bool :=
  validate_identifier_core identifier.toList

/-- The `identifier` setter (`business.py` lines 165-171): store the value when
it validates, otherwise raise `BusinessException('invalid-identifier-format', 406)`.
In this pure embedding a raise returns `Except.error`, leaving the original
record as the still-current state. -/
def setIdentifier (b : Business) (value : String) : Except BusinessException Business :=
  if validate_identifier value then
    Except.ok { b with _identifier := some value }
  else
    Except.error { error := "invalid-identifier-format", status_code := 406 }

/-- `Business.save` persists the record without changing any field; as a state
transformer it is the identity. -/
def save (b : Business) : Business := b

/-- `Business.delete` (`business.py` lines 241-248): businesses cannot be
deleted; when a dissolution date is set the record is saved, and the business
itself is returned. The boolean records whether `save` was invoked. -/
def delete (b : Business) : Business × Bool :=
  match b.dissolution_date with
  | some _ => (b.save, true)
  | none => (b, false)

/-- Lines 184-199 of `business.py`: the AR window before the clamp against
today. Start from Jan 1 .. Dec 31 of the target year; for a co-op move the max
to Oct 31 (2020, COVID extension) or Apr 30 of the following year; for a
benefit company the min is the founding month/day in the target year and the
max is that plus `datedelta(days=60)`. `none` where a `datetime` constructor
raises `ValueError` or the day addition raises `OverflowError`. -/
def ar_dates_pre_clamp (b : Business) (next_ar_year : Nat) : Option (Date × Date) := do
  let ar_min_date ← mkDate next_ar_year 1 1
  let ar_max_date ← mkDate next_ar_year 12 31
  if b.legal_type = LegalTypesCOOP then
    if next_ar_year = 2020 then
      let m ← mkDate (next_ar_year + 1) 10 31
      return (ar_min_date, m)
    else
      let m ← mkDate (next_ar_year + 1) 4 30
      return (ar_min_date, m)
  else if b.legal_type = LegalTypesBCOMP then
    let mn ← mkDate next_ar_year b.founding_date.date.month b.founding_date.date.day
    let mx ← datedeltaAdd mn 0 0 60
    return (mn, mx)
  else
    return (ar_min_date, ar_max_date)

/-- `Business.get_ar_dates` (`business.py` lines 182-204), with today's date
passed explicitly for `datetime.utcnow().date()`: the pre-clamp window, with
the max date replaced by today whenever it lies after today. -/
def get_ar_dates (b : Business) (next_ar_year : Nat) (today : Date) : Option (Date × Date) := do
  let (ar_min_date, ar_max_date) ← b.ar_dates_pre_clamp next_ar_year
  return (ar_min_date, if Date.ltB today ar_max_date then today else ar_max_date)

end Business

/-- The structured `Error` value returned by filing validators: an HTTP status
code and a list of field-level error dictionaries. -/
structure Error where
  code : Nat
  errors : List (List (String × String))
deriving DecidableEq, Repr

namespace Dissolution

/-- `validate` for the dissolution filing (`dissolution.py` lines 24-29).
`business` is `None` or a record; `con` is `None` or a dictionary, modelled as
an association list whose values (of arbitrary type `α`) the validator never
inspects. Python's `not business or not con` is false for a record (objects
are truthy) and true for `None` or an empty dictionary. -/
def validate {α : Type} (business : Option Business) (con : Option (List (String × α))) :
    Option Error :=
  if business.isNone || (match con with | none => true | some d => d.isEmpty) then
    some { code := 400, errors := [[("error", "A valid business and filing are required.")]] }
  else
    none

end Dissolution

/-- A concrete co-operative used to instantiate universally quantified
theorems. -/
def sampleBusiness : Business :=
  { _identifier := some "CP1234567"
    legal_name := some "Sample Cooperative"
    legal_type := "CP"
    founding_date := ⟨⟨2019, 5, 15⟩, 0⟩
    last_ar_date := none
    last_agm_date := none
    dissolution_date := none
    fiscal_year_end_date := none
    last_ar_year := none
    tax_id := none
    restriction_ind := false }

/-- A benefit company founded on February 29 of a leap year. -/
def benFeb29 : Business :=
  { sampleBusiness with
    _identifier := some "BC1234567"
    legal_type := "BEN"
    founding_date := ⟨⟨2020, 2, 29⟩, 0⟩ }

/-- A benefit company whose founding month/day (November 15) exists in every
year, including 9999. -/
def benNov15 : Business :=
  { sampleBusiness with
    _identifier := some "BC2345678"
    legal_type := "BEN"
    founding_date := ⟨⟨9998, 11, 15⟩, 0⟩ }

/-- A standard corporation (legal type `BC`). -/
def bcBusiness : Business :=
  { sampleBusiness with
    _identifier := some "BC7654321"
    legal_type := "BC"
    founding_date := ⟨⟨2019, 3, 15⟩, 0⟩ }

/-- The window prescribed by the specification's rule table (§4.1 of the spec),
stated from the spec's words for comparison with `ar_dates_pre_clamp`:
co-ops run Jan 1 of the target year to Apr 30 of the following year (Oct 31
for target year 2020); benefit companies run from the founding month/day in
the target year to that date plus 60 days; all others run Jan 1 to Dec 31 of
the target year. -/
def ruleTableWindow (legal_type : String) (founding : Date) (y : Nat) : Option (Date × Date) :=
  if legal_type = "CP" then
    some (⟨y, 1, 1⟩, if y = 2020 then ⟨y + 1, 10, 31⟩ else ⟨y + 1, 4, 30⟩)
  else if legal_type = "BEN" then
    (mkDate y founding.month founding.day).map (fun mn => (mn, mn.addDays 60))
  else
    some (⟨y, 1, 1⟩, ⟨y, 12, 31⟩)

theorem daysInMonth_pos (y m : Nat) : 1 ≤ daysInMonth y m := by
  unfold daysInMonth
  split
  · split <;> omega
  · split <;> omega

theorem daysInMonth_ge_28 (y m : Nat) : 28 ≤ daysInMonth y m := by
  unfold daysInMonth
  split
  · split <;> omega
  · split <;> omega

theorem daysInMonth_le_31 (y m : Nat) : daysInMonth y m ≤ 31 := by
  unfold daysInMonth
  split
  · split <;> omega
  · split <;> omega

theorem mkDate_jan1 {y : Nat} (h : 1 ≤ y) (h9 : y ≤ 9999) :
    mkDate y 1 1 = some ⟨y, 1, 1⟩ := by
  have h31 : daysInMonth y 1 = 31 := rfl
  unfold mkDate
  rw [if_pos]
  exact ⟨h, h9, le_refl 1, by omega, le_refl 1, by omega⟩

theorem mkDate_dec31 {y : Nat} (h : 1 ≤ y) (h9 : y ≤ 9999) :
    mkDate y 12 31 = some ⟨y, 12, 31⟩ := by
  have h31 : daysInMonth y 12 = 31 := rfl
  unfold mkDate
  rw [if_pos]
  exact ⟨h, h9, by omega, le_refl 12, by omega, by omega⟩

theorem mkDate_oct31 {y : Nat} (h9 : y + 1 ≤ 9999) :
    mkDate (y + 1) 10 31 = some ⟨y + 1, 10, 31⟩ := by
  have h31 : daysInMonth (y + 1) 10 = 31 := rfl
  unfold mkDate
  rw [if_pos]
  exact ⟨by omega, h9, by omega, by omega, by omega, by omega⟩

theorem mkDate_apr30 {y : Nat} (h9 : y + 1 ≤ 9999) :
    mkDate (y + 1) 4 30 = some ⟨y + 1, 4, 30⟩ := by
  have h30 : daysInMonth (y + 1) 4 = 30 := rfl
  unfold mkDate
  rw [if_pos]
  exact ⟨by omega, h9, by omega, by omega, by omega, by omega⟩

theorem mkDate_some {y m d : Nat} {dd : Date}
    (h : mkDate y m d = some dd) : dd = ⟨y, m, d⟩ ∧ isValidDate y m d := by
  unfold mkDate at h
  split at h
  · exact ⟨(Option.some.inj h).symm, by assumption⟩
  · exact absurd h (by simp)

theorem mkDate_year_pos {y m d : Nat} {dd : Date}
    (h : mkDate y m d = some dd) : 1 ≤ y :=
  (mkDate_some h).2.1

theorem mkDate_year_le {y m d : Nat} {dd : Date}
    (h : mkDate y m d = some dd) : y ≤ 9999 :=
  (mkDate_some h).2.2.1

/-- Well-formedness of a date value independent of the calendar range: month
in 1..12 and day within the month. Preserved by day succession. -/
def Date.Valid (d : Date) : Prop :=
  1 ≤ d.month ∧ d.month ≤ 12 ∧ 1 ≤ d.day ∧ d.day ≤ daysInMonth d.year d.month

theorem Date.nextDay_valid {d : Date} (h : d.Valid) : d.nextDay.Valid := by
  obtain ⟨h1, h2, h3, h4⟩ := h
  unfold Date.nextDay
  by_cases hd : d.day < daysInMonth d.year d.month
  · rw [if_pos hd]
    exact ⟨h1, h2, by show 1 ≤ d.day + 1; omega,
      by show d.day + 1 ≤ daysInMonth d.year d.month; omega⟩
  · rw [if_neg hd]
    by_cases hm : d.month < 12
    · rw [if_pos hm]
      exact ⟨by show 1 ≤ d.month + 1; omega, by show d.month + 1 ≤ 12; omega,
        le_refl 1, daysInMonth_pos _ _⟩
    · rw [if_neg hm]
      exact ⟨le_refl 1, by show (1 : Nat) ≤ 12; omega, le_refl 1, daysInMonth_pos _ _⟩

theorem Date.addDays_valid {d : Date} (h : d.Valid) : ∀ n : Nat, (d.addDays n).Valid := by
  intro n
  induction n generalizing d with
  | zero => exact h
  | succ k ih =>
    show ((d.nextDay).addDays k).Valid
    exact ih (Date.nextDay_valid h)

/-- Position of a date within its year, on a scale that grows by at most one
per calendar day: every month counts 28 slots. -/
def dayMeasure (d : Date) : Nat := (d.month - 1) * 28 + d.day

/-- Global day-granularity measure: a year spans 339 = 11 * 28 + 31 slots, the
largest `dayMeasure` a valid date can take. -/
def dateMeasure (d : Date) : Nat := d.year * 339 + dayMeasure d

theorem dayMeasure_le {d : Date} (h : d.Valid) : dayMeasure d ≤ 339 := by
  obtain ⟨h1, h2, h3, h4⟩ := h
  have h31 := daysInMonth_le_31 d.year d.month
  unfold dayMeasure
  omega

theorem dateMeasure_nextDay {d : Date} (h : d.Valid) :
    dateMeasure d.nextDay ≤ dateMeasure d + 1 := by
  obtain ⟨h1, h2, h3, h4⟩ := h
  have h28 := daysInMonth_ge_28 d.year d.month
  unfold Date.nextDay
  by_cases hd : d.day < daysInMonth d.year d.month
  · rw [if_pos hd]
    show d.year * 339 + ((d.month - 1) * 28 + (d.day + 1))
      ≤ d.year * 339 + ((d.month - 1) * 28 + d.day) + 1
    omega
  · rw [if_neg hd]
    have hd2 : daysInMonth d.year d.month ≤ d.day := Nat.le_of_not_lt hd
    by_cases hm : d.month < 12
    · rw [if_pos hm]
      show d.year * 339 + ((d.month + 1 - 1) * 28 + 1)
        ≤ d.year * 339 + ((d.month - 1) * 28 + d.day) + 1
      omega
    · rw [if_neg hm]
      have hm12 : d.month = 12 := by omega
      have hdim : daysInMonth d.year d.month = 31 := by
        rw [hm12]
        rfl
      show (d.year + 1) * 339 + ((1 - 1) * 28 + 1)
        ≤ d.year * 339 + ((d.month - 1) * 28 + d.day) + 1
      omega

theorem dateMeasure_addDays :
    ∀ (n : Nat) (d : Date), d.Valid → dateMeasure (d.addDays n) ≤ dateMeasure d + n := by
  intro n
  induction n with
  | zero =>
    intro d h
    simp [Date.addDays]
  | succ k ih =>
    intro d h
    have h2 := dateMeasure_nextDay h
    have h3 := ih d.nextDay (Date.nextDay_valid h)
    show dateMeasure ((d.nextDay).addDays k) ≤ dateMeasure d + (k + 1)
    omega

/-- Sixty day-successions starting inside year 9998 or earlier stay within
Python's calendar range. -/
theorem addDays60_year_le {d : Date} (h : d.Valid) (hy : d.year ≤ 9998) :
    (d.addDays 60).year ≤ 9999 := by
  have h1 := dateMeasure_addDays 60 d h
  have h2 := dayMeasure_le h
  have h3 : (d.addDays 60).year * 339 ≤ dateMeasure (d.addDays 60) := by
    unfold dateMeasure
    omega
  unfold dateMeasure at h1
  omega

theorem mkDate_self {d : Date} (h : d.Valid) (h1 : 1 ≤ d.year) (h9 : d.year ≤ 9999) :
    mkDate d.year d.month d.day = some d := by
  obtain ⟨a, b, c, e⟩ := h
  unfold mkDate
  rw [if_pos]
  exact ⟨h1, h9, a, b, c, e⟩

theorem datedeltaShift_zero {d : Date} (h : d.Valid) : datedeltaShift d 0 0 = d := by
  obtain ⟨hm1, hm2, hd1, hd2⟩ := h
  unfold datedeltaShift
  have hdiv : (d.month - 1 + 0) / 12 = 0 := Nat.div_eq_of_lt (by omega)
  have hmod : (d.month - 1 + 0) % 12 = d.month - 1 := Nat.mod_eq_of_lt (by omega)
  rw [hdiv, hmod]
  have e2 : d.year + 0 + 0 = d.year := by omega
  have e3 : d.month - 1 + 1 = d.month := by omega
  rw [e2, e3, min_eq_left hd2]

/-- For a valid in-range date whose day-shifted result stays in range, a pure
day-count `datedelta` succeeds and coincides with repeated day-succession: the
month-shift step is the identity and neither `replace` nor the timedelta
addition raises. -/
theorem datedeltaAdd_days_only {d : Date} (n : Nat) (h : d.Valid)
    (h1 : 1 ≤ d.year) (h9 : d.year ≤ 9999) (hr : (d.addDays n).year ≤ 9999) :
    datedeltaAdd d 0 0 n = some (d.addDays n) := by
  unfold datedeltaAdd
  rw [datedeltaShift_zero h, mkDate_self h h1 h9]
  show Date.addTimedelta d n = some (d.addDays n)
  unfold Date.addTimedelta
  rw [if_pos hr]

theorem Nat_blt_self (n : Nat) : Nat.blt n n = false := by
  rw [Bool.eq_false_iff]
  intro hc
  rw [Nat.blt_eq] at hc
  exact absurd hc (lt_irrefl n)

theorem Date.ltB_irrefl (d : Date) : Date.ltB d d = false := by
  simp [Date.ltB, Nat_blt_self]

/-- Unfolding of `validate_identifier` into the specification's phrasing:
accepted iff the string starts with `NR`, or its length is at least 9, its
trailing seven characters convert to a non-zero integer, and its remaining
head is one of the known registry heads `CP`, `XCP`, `BC`. -/
theorem validate_identifier_core_iff (cs : List Char) :
    Business.validate_identifier_core cs = true ↔
      (cs.take 2 = ['N', 'R']
        ∨ (9 ≤ cs.length
            ∧ (∃ d : Int, pyIntParse (cs.drop (cs.length - 7)) = some d ∧ d ≠ 0)
            ∧ (cs.take (cs.length - 7) = ['C', 'P']
                ∨ cs.take (cs.length - 7) = ['X', 'C', 'P']
                ∨ cs.take (cs.length - 7) = ['B', 'C']))) := by
  unfold Business.validate_identifier_core
  by_cases h1 : cs.take 2 = ['N', 'R']
  · simp [h1]
  · rw [if_neg h1]
    by_cases h2 : cs.length < 9
    · rw [if_pos h2]
      simp only [h1, false_or, Bool.false_eq_true, false_iff]
      intro hc
      exact absurd hc.1 (by omega)
    · rw [if_neg h2]
      have h9 : 9 ≤ cs.length := by omega
      cases hp : pyIntParse (cs.drop (cs.length - 7)) with
      | none => simp [h1, hp]
      | some d =>
        by_cases hd0 : d = 0
        · subst hd0
          simp [h1, hp]
        · simp [h1, hp, hd0, h9, or_assoc]

/-- Unfolding of `validate_identifier` into the specification's phrasing:
accepted iff the string starts with `NR`, or its length is at least 9, its
trailing seven characters convert to a non-zero integer, and its remaining
head is one of the known registry heads `CP`, `XCP`, `BC`. -/
theorem validate_identifier_iff (s : String) :
    Business.validate_identifier s = true ↔
      (s.toList.take 2 = ['N', 'R']
        ∨ (9 ≤ s.toList.length
            ∧ (∃ d : Int, pyIntParse (s.toList.drop (s.toList.length - 7)) = some d ∧ d ≠ 0)
            ∧ (s.toList.take (s.toList.length - 7) = ['C', 'P']
                ∨ s.toList.take (s.toList.length - 7) = ['X', 'C', 'P']
                ∨ s.toList.take (s.toList.length - 7) = ['B', 'C']))) :=
  validate_identifier_core_iff s.toList

/-- C1 counterexample: at target report year 9999 a co-op's rule-table window
ends Apr 30 of year 10000, a date `datetime` cannot represent: the code raises
`ValueError` in `datetime(10000, 4, 30)` (here: computes no window), while the
rule table prescribes one, so the correspondence fails for that year. -/
theorem C1_counterexample :
    sampleBusiness.ar_dates_pre_clamp 9999
      ≠ ruleTableWindow sampleBusiness.legal_type sampleBusiness.founding_date.date 9999 := by
  decide

/-- C1 amended: for every business and every target report year between 1 and
9998 (the years for which every date the rule table mentions lies within
Python's calendar range), the pre-clamp portion of `get_ar_dates` computes
exactly the window of the specification's rule table: co-op years run Jan 1 to
Apr 30 of the following year (Oct 31 of the following year for target year
2020), benefit-company years run from the founding month/day in the target
year for 60 days, and all other legal types run Jan 1 to Dec 31 of the target
year. -/
theorem C1_ar_window_rule_table :
    ∀ (b : Business) (y : Nat), 1 ≤ y → y ≤ 9998 →
      b.ar_dates_pre_clamp y = ruleTableWindow b.legal_type b.founding_date.date y := by
  intro b y hy hy98
  unfold Business.ar_dates_pre_clamp ruleTableWindow
  rw [mkDate_jan1 hy (by omega), mkDate_dec31 hy (by omega)]
  by_cases hcp : b.legal_type = "CP"
  · by_cases h2020 : y = 2020
    · subst h2020
      simp [hcp, Business.LegalTypesCOOP, mkDate_oct31 (by decide : (2020 : Nat) + 1 ≤ 9999)]
    · simp [hcp, Business.LegalTypesCOOP, h2020, mkDate_apr30 (by omega : y + 1 ≤ 9999)]
  · by_cases hben : b.legal_type = "BEN"
    · simp only [hcp, Business.LegalTypesCOOP, Business.LegalTypesBCOMP, hben,
        if_true, if_false, Option.some_bind, if_neg (by simp : ¬("BEN" = "CP"))]
      cases hmk : mkDate y b.founding_date.date.month b.founding_date.date.day with
      | none => simp
      | some mn =>
        obtain ⟨hEq, hval⟩ := mkDate_some hmk
        subst hEq
        have hv : Date.Valid ⟨y, b.founding_date.date.month, b.founding_date.date.day⟩ :=
          ⟨hval.2.2.1, hval.2.2.2.1, hval.2.2.2.2.1, hval.2.2.2.2.2⟩
        have hda := datedeltaAdd_days_only
          (d := ⟨y, b.founding_date.date.month, b.founding_date.date.day⟩)
          60 hv hval.1 hval.2.1 (addDays60_year_le hv hy98)
        simp [hda]
    · simp [hcp, hben, Business.LegalTypesCOOP, Business.LegalTypesBCOMP]

/-- Witness for C1 at a concrete co-op and the special year 2020. -/
theorem C1_witness :
    1 ≤ 2020 ∧ 2020 ≤ 9998
      ∧ sampleBusiness.ar_dates_pre_clamp 2020
          = ruleTableWindow sampleBusiness.legal_type sampleBusiness.founding_date.date 2020 :=
  ⟨by decide, by decide, C1_ar_window_rule_table sampleBusiness 2020 (by decide) (by decide)⟩

theorem get_ar_dates_eq (b : Business) (y : Nat) (today : Date) :
    b.get_ar_dates y today
      = (b.ar_dates_pre_clamp y).map
          (fun p => (p.1, if Date.ltB today p.2 then today else p.2)) := by
  unfold Business.get_ar_dates
  cases b.ar_dates_pre_clamp y <;> rfl

theorem get_ar_dates_isSome (b : Business) (y : Nat) (today : Date) :
    (b.get_ar_dates y today).isSome = (b.ar_dates_pre_clamp y).isSome := by
  rw [get_ar_dates_eq]
  cases b.ar_dates_pre_clamp y <;> rfl

/-- C2: the maximum date returned by `get_ar_dates` is never later than the
current date, and whenever the pre-clamp rule computation yields a maximum
date strictly after today, the returned maximum date is exactly today. -/
theorem C2_ar_max_never_future :
    ∀ (b : Business) (y : Nat) (today mn mx : Date),
      b.get_ar_dates y today = some (mn, mx) →
        Date.ltB today mx = false
          ∧ ∀ mn0 mx0, b.ar_dates_pre_clamp y = some (mn0, mx0) →
              Date.ltB today mx0 = true → mx = today := by
  intro b y today mn mx h
  rw [get_ar_dates_eq] at h
  cases hpre : b.ar_dates_pre_clamp y with
  | none =>
    rw [hpre] at h
    exact absurd h (by simp)
  | some p =>
    obtain ⟨a, c⟩ := p
    rw [hpre] at h
    simp only [Option.map_some'] at h
    have h' := Option.some.inj h
    rw [Prod.mk.injEq] at h'
    obtain ⟨hmn, hmx⟩ := h'
    constructor
    · rw [← hmx]
      by_cases hc : Date.ltB today c = true
      · rw [if_pos hc]
        exact Date.ltB_irrefl today
      · rw [if_neg hc]
        exact Bool.eq_false_iff.mpr hc
    · intro mn0 mx0 h0 hlt
      have h0' := Option.some.inj h0
      rw [Prod.mk.injEq] at h0'
      obtain ⟨h0a, h0c⟩ := h0'
      rw [← hmx, h0c, if_pos hlt]

/-- Witness for C2 at a concrete corporation whose pre-clamp maximum lies in
the future of the given current date. -/
theorem C2_witness :
    bcBusiness.get_ar_dates 2022 ⟨2021, 6, 1⟩ = some (⟨2022, 1, 1⟩, ⟨2021, 6, 1⟩)
      ∧ Date.ltB ⟨2021, 6, 1⟩ ⟨2021, 6, 1⟩ = false :=
  ⟨by decide,
    (C2_ar_max_never_future bcBusiness 2022 ⟨2021, 6, 1⟩ ⟨2022, 1, 1⟩ ⟨2021, 6, 1⟩
      (by decide)).1⟩

/-- C4: `validate_identifier` accepts every string beginning with `NR`, and
otherwise accepts exactly the strings of length at least 9 whose trailing
seven characters convert to a non-zero integer and whose remaining head is one
of the known registry heads; in particular `CP1234567` is valid, `CP0000000`
is invalid and `NRxyz` is valid. -/
theorem C4_validate_identifier_spec :
    (∀ s : String,
      Business.validate_identifier s = true ↔
        (s.toList.take 2 = ['N', 'R']
          ∨ (9 ≤ s.toList.length
              ∧ (∃ d : Int, pyIntParse (s.toList.drop (s.toList.length - 7)) = some d ∧ d ≠ 0)
              ∧ (s.toList.take (s.toList.length - 7) = ['C', 'P']
                  ∨ s.toList.take (s.toList.length - 7) = ['X', 'C', 'P']
                  ∨ s.toList.take (s.toList.length - 7) = ['B', 'C']))))
      ∧ Business.validate_identifier "CP1234567" = true
      ∧ Business.validate_identifier "CP0000000" = false
      ∧ Business.validate_identifier "NRxyz" = true :=
  ⟨validate_identifier_iff, by decide, by decide, by decide⟩

/-- C5 counterexample: `CP+123456` is accepted by `validate_identifier` (the
`int()` conversion tolerates an explicit sign), does not start with `NR`, and
its trailing seven characters are not all decimal digits, so acceptance does
not imply the two-or-three-letter-head + 7-digit shape. -/
theorem C5_counterexample :
    Business.validate_identifier "CP+123456" = true
      ∧ "CP+123456".toList.take 2 ≠ ['N', 'R']
      ∧ ("CP+123456".toList.drop ("CP+123456".toList.length - 7)).all Char.isDigit = false := by
  exact ⟨by decide, by decide, by decide⟩

/-- C5 amended: every string accepted by `validate_identifier` that does not
start with `NR` has length at least 9, a head equal to `CP`, `XCP` or `BC`,
and a trailing seven-character suffix that converts via Python `int()` to a
non-zero integer — but that suffix may carry a sign, surrounding whitespace or
underscores, so it need not be seven decimal digits. -/
theorem C5_accepted_shape :
    ∀ s : String, Business.validate_identifier s = true →
      s.toList.take 2 ≠ ['N', 'R'] →
        9 ≤ s.toList.length
          ∧ (s.toList.take (s.toList.length - 7) = ['C', 'P']
              ∨ s.toList.take (s.toList.length - 7) = ['X', 'C', 'P']
              ∨ s.toList.take (s.toList.length - 7) = ['B', 'C'])
          ∧ ∃ d : Int, pyIntParse (s.toList.drop (s.toList.length - 7)) = some d ∧ d ≠ 0 := by
  intro s hv hnr
  rcases (validate_identifier_iff s).mp hv with h | h
  · exact absurd h hnr
  · exact ⟨h.1, h.2.2, h.2.1⟩

/-- Witness for C5 at the well-formed identifier `CP1234567`. -/
theorem C5_witness :
    Business.validate_identifier "CP1234567" = true
      ∧ "CP1234567".toList.take 2 ≠ ['N', 'R']
      ∧ (9 ≤ "CP1234567".toList.length
          ∧ ("CP1234567".toList.take ("CP1234567".toList.length - 7) = ['C', 'P']
              ∨ "CP1234567".toList.take ("CP1234567".toList.length - 7) = ['X', 'C', 'P']
              ∨ "CP1234567".toList.take ("CP1234567".toList.length - 7) = ['B', 'C'])
          ∧ ∃ d : Int,
              pyIntParse ("CP1234567".toList.drop ("CP1234567".toList.length - 7)) = some d
                ∧ d ≠ 0) :=
  ⟨by decide, by decide, C5_accepted_shape "CP1234567" (by decide) (by decide)⟩

/-- C9 counterexample: the founding-month/day-exists precondition does not
make `get_ar_dates` total. For a benefit company founded November 15 and
target year 9999, `datetime(9999, 11, 15)` succeeds (the precondition holds),
yet the 60-day addition passes `date.max` and Python raises `OverflowError`:
no window is returned. -/
theorem C9_counterexample :
    mkDate 9999 benNov15.founding_date.date.month benNov15.founding_date.date.day ≠ none
      ∧ benNov15.get_ar_dates 9999 ⟨2021, 6, 1⟩ = none := by
  exact ⟨by decide, by decide⟩

/-- C9 amended: `get_ar_dates` is not total for benefit companies: for a
benefit company founded on February 29 2020 and the non-leap target year 2021
the `datetime` construction fails, so no window is returned; and it is total
whenever the founding month/day exists in the target year and the target year
is at most 9998 (for target year 9999 a late-year anniversary makes the 60-day
maximum overflow Python's `date.max`). -/
theorem C9_ben_feb29_partiality :
    benFeb29.get_ar_dates 2021 ⟨2021, 6, 1⟩ = none
      ∧ ∀ (b : Business) (y : Nat) (today : Date),
          b.legal_type = "BEN" →
          mkDate y b.founding_date.date.month b.founding_date.date.day ≠ none →
          y ≤ 9998 →
          (b.get_ar_dates y today).isSome = true := by
  constructor
  · decide
  · intro b y today hben hvalid hy98
    obtain ⟨mn, hmk⟩ := Option.ne_none_iff_exists'.mp hvalid
    have hy : 1 ≤ y := mkDate_year_pos hmk
    obtain ⟨hEq, hval⟩ := mkDate_some hmk
    subst hEq
    have hv : Date.Valid ⟨y, b.founding_date.date.month, b.founding_date.date.day⟩ :=
      ⟨hval.2.2.1, hval.2.2.2.1, hval.2.2.2.2.1, hval.2.2.2.2.2⟩
    have hda := datedeltaAdd_days_only
      (d := ⟨y, b.founding_date.date.month, b.founding_date.date.day⟩)
      60 hv hval.1 hval.2.1 (addDays60_year_le hv hy98)
    rw [get_ar_dates_isSome]
    unfold Business.ar_dates_pre_clamp
    rw [mkDate_jan1 hy (by omega), mkDate_dec31 hy (by omega)]
    simp only [Option.bind_eq_bind, Option.some_bind]
    rw [if_neg (by rw [hben]; decide),
      if_pos (show b.legal_type = Business.LegalTypesBCOMP from hben)]
    rw [hmk, Option.some_bind, hda, Option.some_bind]
    rfl

/-- Witness for C9's totality part: the same Feb-29 benefit company does get a
window for the leap target year 2020. -/
theorem C9_witness :
    (benFeb29.get_ar_dates 2020 ⟨2021, 6, 1⟩).isSome = true :=
  C9_ben_feb29_partiality.2 benFeb29 2020 ⟨2021, 6, 1⟩ rfl (by decide) (by decide)

/-- C6: assigning a string to the business identifier errors with
`invalid-identifier-format` exactly when `validate_identifier` rejects it;
when validation succeeds the stored `_identifier` field becomes exactly the
assigned value and every other field is unchanged (the `ok` result is the
record with only `_identifier` updated); on failure no updated record is
produced, so the stored field is the original one. -/
theorem C6_identifier_assignment :
    ∀ (b : Business) (value : String),
      (Business.setIdentifier b value = Except.ok { b with _identifier := some value }
          ↔ Business.validate_identifier value = true)
        ∧ (Business.setIdentifier b value
              = Except.error ⟨"invalid-identifier-format", 406⟩
          ↔ Business.validate_identifier value = false) := by
  intro b value
  by_cases h : Business.validate_identifier value <;>
    simp [Business.setIdentifier, h]

/-- C7: `delete` never removes a business: it returns the very same record,
every field (including `dissolution_date`) unchanged, and it persists (saves)
the record exactly when a dissolution date is set. -/
theorem C7_delete_is_noop :
    ∀ b : Business,
      (Business.delete b).1 = b
        ∧ (Business.delete b).2 = b.dissolution_date.isSome := by
  intro b
  cases h : b.dissolution_date <;>
    simp [Business.delete, Business.save, h]

/-- C8 counterexample: with a present business and a present-but-empty filing
dictionary, the dissolution validator still returns the 400 error, although
neither input is missing; the claim's "error if and only if missing" fails in
the only-if direction. -/
theorem C8_counterexample :
    Dissolution.validate (α := String) (some sampleBusiness) (some [])
        = some ⟨400, [[("error", "A valid business and filing are required.")]]⟩
      ∧ (some sampleBusiness ≠ (none : Option Business))
      ∧ ((some [] : Option (List (String × String))) ≠ none) := by
  refine ⟨rfl, by simp, by simp⟩

/-- C8 amended: the dissolution validator returns the structured 400 error
with the field-level message exactly when the business is missing or the
filing dictionary is missing or empty; otherwise it returns nothing. It is a
total function, so it never raises. -/
theorem C8_dissolution_validate_iff :
    ∀ (α : Type) (business : Option Business) (con : Option (List (String × α))),
      (Dissolution.validate business con
            = some ⟨400, [[("error", "A valid business and filing are required.")]]⟩
        ↔ (business = none ∨ con = none ∨ con = some []))
        ∧ (Dissolution.validate business con = none
        ↔ (business ≠ none ∧ con ≠ none ∧ con ≠ some [])) := by
  intro α business con
  cases business <;> cases con <;>
    simp [Dissolution.validate, List.isEmpty_iff]

/-- C10: the returned window can be empty: for a standard corporation, target
report year 2022 and current date June 1 2021, `get_ar_dates` returns minimum
date Jan 1 2022 and (clamped) maximum date June 1 2021, and the minimum is
strictly later than the maximum. -/
theorem C10_window_can_be_empty :
    bcBusiness.get_ar_dates 2022 ⟨2021, 6, 1⟩
        = some (⟨2022, 1, 1⟩, ⟨2021, 6, 1⟩)
      ∧ Date.ltB ⟨2021, 6, 1⟩ ⟨2022, 1, 1⟩ = true := by
  exact ⟨by decide, by decide⟩

end Lear
